import Mathlib

/-!
Verification of `utils/preprocess_data.py` (lip-reading preprocessing).

Shallow embedding of the repository's preprocessing module:
* `Align` — transcript parsing (`from_file`), filler stripping (`strip`,
  `get_sentence`) and label padding (`get_padded_label`);
* `Video.get_frames_mouth` — mouth-crop extraction over abstract
  detector/predictor/resize/crop oracles;
* `Video.set_data` — axis permutation packing frames into a 4-D tensor;
* `preprocess` — the per-speaker-index driver.

Python floats are modelled by `ℚ`, Python `int()` truncation by `pyTrunc`,
Python sets by `Finset ℤ`, and fallible operations by `Option`.
-/

/- The Batteries rational-number operations are `irreducible` by default;
re-open them so that concrete rational computations can be settled by `decide`. -/
attribute [local semireducible] Rat.mul Rat.inv Rat.add Rat.sub

/-- Truncation toward zero, the behaviour of Python `int()` on a float. -/
def pyTrunc (q : ℚ) : ℤ := if 0 ≤ q then ⌊q⌋ else ⌈q⌉

/-- Value of a nonempty all-digit character list, as Python reads decimal digits. -/
def digitsVal (l : List Char) : Option ℕ :=
  if l ≠ [] ∧ l.all Char.isDigit then
    some (l.foldl (fun a c => a * 10 + (c.toNat - 48)) 0)
  else none

/-- Model of Python `str.strip()`: drop leading and trailing whitespace. -/
def pyStrip (s : String) : String :=
  ⟨((s.data.dropWhile Char.isWhitespace).reverse.dropWhile Char.isWhitespace).reverse⟩

/-- Split a character list on every occurrence of a single space, keeping
empty pieces — the semantics of Python `str.split(" ")`. -/
def splitSpaceChars : List Char → List (List Char)
  | [] => [[]]
  | c :: rest =>
    match splitSpaceChars rest with
    | [] => [[c]]
    | h :: t => if c = ' ' then [] :: h :: t else (c :: h) :: t

/-- Model of Python `s.split(" ")`. -/
def pySplitSpace (s : String) : List String :=
  (splitSpaceChars s.data).map (fun l => ⟨l⟩)

/-- Model of CPython `int(str)` on ASCII inputs (optional surrounding
whitespace, optional sign, decimal digits; digit-group underscores are not
modelled). Returns `none` where `int()` raises `ValueError`. -/
def pyInt (s : String) : Option ℤ :=
  match (pyStrip s).data with
  | '+' :: rest => (digitsVal rest).map (fun n => (n : ℤ))
  | '-' :: rest => (digitsVal rest).map (fun n => -(n : ℤ))
  | l => (digitsVal l).map (fun n => (n : ℤ))

namespace Align

/-- One alignment record `(start_time, end_time, token)` as built by
`Align.from_file`: times in seconds (ms divided by 1000), token a string. -/
abbrev Rec := ℚ × ℚ × String

/-- One line of `Align.from_file`'s comprehension:
`(int(y[0])/1000, int(y[1])/1000, y[2])` for `y = x.strip().split(" ")`.
`none` models the `IndexError` (fewer than 3 fields) or `ValueError`
(non-integer time field) the Python line raises. -/
def parseLine (x : String) : Option Rec :=
  match pySplitSpace (pyStrip x) with
  | a :: b :: c :: _ =>
    match pyInt a, pyInt b with
    | some s, some e => some ((s : ℚ) / 1000, (e : ℚ) / 1000, c)
    | _, _ => none
  | _ => none

/-- The list comprehension of `Align.from_file` over all lines of the file:
all lines parse, or the first bad line raises (`none`). -/
def parseLines : List String → Option (List Rec)
  | [] => some []
  | x :: xs =>
    match parseLine x, parseLines xs with
    | some r, some rs => some (r :: rs)
    | _, _ => none

/-- `Align.strip`: keep records whose token is not in `items`. -/
def strip (align : List Rec) (items : List String) : List Rec :=
  align.filter (fun sub => sub.2.2 ∉ items)

/-- `Align.get_sentence`: join non-filler tokens with single spaces. -/
def get_sentence (align : List Rec) : String :=
  String.intercalate " "
    ((align.filter (fun y => y.2.2 ∉ (["sp", "sil"] : List String))).map (fun y => y.2.2))

/-- `Align.get_padded_label`: `np.ones((max_len - len(label))) * -1` appended
to the label. `np.ones` raises `ValueError` on a negative dimension, modelled
by `none`. -/
def get_padded_label (maxLen : ℕ) (label : List ℤ) : Option (List ℤ) :=
  let k : ℤ := (maxLen : ℤ) - (label.length : ℤ)
  if k < 0 then none
  else some (label ++ List.replicate k.toNat (-1))

/-- The fields `Align.build` assigns (`align`, `sentence`, `label`,
`padded_label`); `padded_label` is `Option` since its construction can raise. -/
structure BuildResult where
  align : List Rec
  sentence : String
  label : List ℤ
  padded_label : Option (List ℤ)

/-- `Align.build`, with the injected `label_func`. -/
def build (maxLen : ℕ) (label_func : String → List ℤ) (a : List Rec) : BuildResult :=
  let al := strip a ["sp", "sil"]
  let s := get_sentence a
  let l := label_func s
  { align := al, sentence := s, label := l, padded_label := get_padded_label maxLen l }

end Align

/-! ## The `preprocess` driver

`preprocess(from_idx, to_idx, _params)` iterates `idx` over
`range(from_idx, to_idx)`; each iteration reassigns
`source_path = source_path + '/' + 's' + str(idx) + '/'` (note: the variable
is reused, so the paths accumulate across iterations), walks that directory
for `*.mpg` files, processes each file, and classifies the index into the
`succ` set, or into the `fail` set when an `OSError` was raised; any other
exception propagates and aborts the whole call.

The filesystem and the per-file work are oracles: `ff` is `find_files`
(the files `os.walk` yields under a directory — `[]` for a missing or empty
directory), and `pf` gives the outcome of the whole per-file body
(`Video(...).from_video`, `mkdir_p`, `io.imsave`). -/

/-- Outcome of processing one video file: normal completion, an `OSError`,
or any other exception. -/
inductive FileOutcome where
  | ok
  | osErr
  | otherErr
deriving DecidableEq

/-- Run the per-file body over the files of one index's directory, stopping
at the first exception — the `for filepath in find_files(...)` loop. -/
def processFiles (pf : String → FileOutcome) : List String → FileOutcome
  | [] => .ok
  | f :: fs =>
    match pf f with
    | .ok => processFiles pf fs
    | e => e

/-- `source_path + '/' + 's' + str(idx) + '/'`. -/
def sIdxPath (p : String) (idx : ℤ) : String := p ++ "/" ++ "s" ++ toString idx ++ "/"

/-- The loop of `preprocess`, with the accumulated `source_path` threaded
through exactly as the Python variable is. `none` models an uncaught
(non-`OSError`) exception. -/
def ppGo (ff : String → List String) (pf : String → FileOutcome) :
    List ℤ → String → Finset ℤ → Finset ℤ → Option (Finset ℤ × Finset ℤ)
  | [], _, succ, fail => some (succ, fail)
  | idx :: rest, sp, succ, fail =>
    let sp' := sIdxPath sp idx
    match processFiles pf (ff sp') with
    | .ok => ppGo ff pf rest sp' (insert idx succ) fail
    | .osErr => ppGo ff pf rest sp' succ (insert idx fail)
    | .otherErr => none

/-- Python `range(a, b)` over integers. -/
def pyRange (a b : ℤ) : List ℤ := (List.range (b - a).toNat).map (fun i : ℕ => a + (i : ℤ))

/-- `preprocess(from_idx, to_idx, _params)` with `src_path` from `_params`. -/
def preprocess (ff : String → List String) (pf : String → FileOutcome)
    (from_idx to_idx : ℤ) (src_path : String) : Option (Finset ℤ × Finset ℤ) :=
  ppGo ff pf (pyRange from_idx to_idx) src_path ∅ ∅

/-- The `(idx, directory searched for idx)` pairs produced by the loop,
with the same accumulation of `source_path`. -/
def pathPairs (sp : String) : List ℤ → List (ℤ × String)
  | [] => []
  | idx :: rest => (idx, sIdxPath sp idx) :: pathPairs (sIdxPath sp idx) rest

/-! ## `Video.get_frames_mouth`

Frames and dlib detections are abstract types; the dlib face detector, the
shape predictor, `scipy.misc.imresize` and numpy slicing are oracles.
Python floats are `ℚ` and `int()` is `pyTrunc`. -/

namespace Video

/-- `np.min` of a nonempty integer list (`0` on the empty list, where numpy
would raise). -/
def npMinList : List ℤ → ℤ
  | [] => 0
  | x :: xs => xs.foldl min x

/-- `np.max` of a nonempty integer list (`0` on the empty list). -/
def npMaxList : List ℤ → ℤ
  | [] => 0
  | x :: xs => xs.foldl max x

/-- The mouth landmarks of a frame: the parts of the shape predicted from the
LAST detection (the loop `for det in dets: shape = predictor(frame, det)`
keeps only the final shape), restricted to part indices `≥ 48`
(`if i < 48: continue`). Empty when the detector returns no detection. -/
def mouthPoints {α δ : Type*} (det : α → List δ) (pred : α → δ → List (ℤ × ℤ))
    (f : α) : List (ℤ × ℤ) :=
  match (det f).getLast? with
  | none => []
  | some d => (pred f d).drop 48

/-- `np.mean(np_mouth_points[:, -2:], axis=0)`: the (x, y) centroid of the
mouth points (division by zero yields `0` in `ℚ` where numpy gives `nan`). -/
def centroidOf (pts : List (ℤ × ℤ)) : ℚ × ℚ :=
  ((pts.map (fun p => (p.1 : ℚ))).sum / pts.length,
   (pts.map (fun p => (p.2 : ℚ))).sum / pts.length)

/-- Lines 153–156 of the source:
`mouth_left = np.min(np_mouth_points[:, :-1]) * (1.0 - horizontal_pad)`,
`mouth_right = np.max(np_mouth_points[:, :-1]) * (1.0 + horizontal_pad)`,
`normalize_ratio = mouth_width / float(mouth_right - mouth_left)`
with `mouth_width = 100` and `horizontal_pad = 0.19`; the `[:, :-1]` slice
of an (N, 2) array is the x column. -/
def normRatioOf (pts : List (ℤ × ℤ)) : ℚ :=
  let xs := pts.map (fun p => p.1)
  let mouth_left : ℚ := (npMinList xs : ℚ) * (1 - 19/100)
  let mouth_right : ℚ := (npMaxList xs : ℚ) * (1 + 19/100)
  100 / (mouth_right - mouth_left)

/-- The per-frame body of the crop loop, given the ratio `r` in force:
resize the frame to `(int(h*r), int(w*r))`, scale the frame's own mouth
centroid by `r`, and crop `resized[mouth_t:mouth_b, mouth_l:mouth_r]` with
the fixed `mouth_width = 100`, `mouth_height = 50` window. -/
def processFrame {α : Type*} (resize : α → ℤ × ℤ → α) (crop : α → ℤ → ℤ → ℤ → ℤ → α)
    (shp : α → ℕ × ℕ) (r : ℚ) (f : α) (pts : List (ℤ × ℤ)) : α :=
  let c := centroidOf pts
  let resized := resize f (pyTrunc (((shp f).1 : ℚ) * r), pyTrunc (((shp f).2 : ℚ) * r))
  let mcx := c.1 * r
  let mcy := c.2 * r
  crop resized (pyTrunc (mcy - 25)) (pyTrunc (mcy + 25)) (pyTrunc (mcx - 50)) (pyTrunc (mcx + 50))

/-- The frame loop of `get_frames_mouth`: `frames` is the full original
input (returned whole as soon as some frame has no detection), the second
list is the remaining frames, then the current `normalize_ratio`
(`none` until first computed) and the accumulated `mouth_frames`. -/
def gfmGo {α δ : Type*} (det : α → List δ) (pred : α → δ → List (ℤ × ℤ))
    (resize : α → ℤ × ℤ → α) (crop : α → ℤ → ℤ → ℤ → ℤ → α) (shp : α → ℕ × ℕ)
    (frames : List α) : List α → Option ℚ → List α → List α
  | [], _, acc => acc
  | f :: rest, nr, acc =>
    match (det f).getLast? with
    | none => frames
    | some d =>
      let pts := (pred f d).drop 48
      let r := match nr with
        | some r0 => r0
        | none => normRatioOf pts
      gfmGo det pred resize crop shp frames rest (some r)
        (acc ++ [processFrame resize crop shp r f pts])

/-- `Video.get_frames_mouth(detector, predictor, frames)`. -/
def get_frames_mouth {α δ : Type*} (det : α → List δ) (pred : α → δ → List (ℤ × ℤ))
    (resize : α → ℤ × ℤ → α) (crop : α → ℤ → ℤ → ℤ → ℤ → α) (shp : α → ℕ × ℕ)
    (frames : List α) : List α :=
  gfmGo det pred resize crop shp frames frames none []

/-- The `normalize_ratio` computed from the first frame of the clip (the only
frame it can be computed from, since a detection failure at any frame returns
the whole clip). -/
def firstNormRatio {α δ : Type*} (det : α → List δ) (pred : α → δ → List (ℤ × ℤ))
    (frames : List α) : ℚ :=
  match frames with
  | [] => 0
  | f :: _ => normRatioOf (mouthPoints det pred f)

end Video

/-! ## `Video.set_data`

A numpy array is modelled by its shape together with a total index
function; `swapaxes`, `np.array([·])`, stacking and `np.rollaxis` are pure
index permutations on this model. -/

/-- A numpy ndarray: a shape and an element function on index lists. -/
structure Tensor (α : Type*) where
  shape : List ℕ
  el : List ℕ → α

/-- Exchange positions `a` and `b` of an index or shape list. -/
def listSwap (a b : ℕ) (l : List ℕ) : List ℕ :=
  (l.set a (l.getD b 0)).set b (l.getD a 0)

/-- `ndarray.swapaxes(a, b)`. -/
def Tensor.swapaxes {α : Type*} (a b : ℕ) (t : Tensor α) : Tensor α :=
  ⟨listSwap a b t.shape, fun idx => t.el (listSwap a b idx)⟩

/-- `np.array([frame])`: prepend a unit axis. -/
def Tensor.expandDims {α : Type*} (t : Tensor α) : Tensor α :=
  ⟨1 :: t.shape, fun idx =>
    match idx with
    | [] => t.el []
    | _ :: rest => t.el rest⟩

/-- A zero-dimensional placeholder array. -/
def Tensor.const {α : Type*} (d : α) : Tensor α :=
  ⟨[], fun _ => d⟩

/-- `np.array(list_of_frames)`: stack along a new leading axis. -/
def Tensor.stack {α : Type*} (d : α) (fs : List (Tensor α)) : Tensor α :=
  ⟨fs.length :: (fs.headD (Tensor.const d)).shape,
   fun idx =>
     match idx with
     | [] => d
     | t :: rest => (fs.getD t (Tensor.const d)).el rest⟩

/-- `np.rollaxis(arr, 3)` on a 4-D array: move axis 3 to the front
(identity on other ranks, which the source never hits). -/
def Tensor.rollaxis3 {α : Type*} (t : Tensor α) : Tensor α :=
  ⟨match t.shape with
    | [a, b, c, e] => [e, a, b, c]
    | s => s,
   fun idx =>
     match idx with
     | [i, j, k, l] => t.el [j, k, l, i]
     | i => t.el i⟩

/-- The body of `set_data`'s frame loop: `frame.swapaxes(0, 1)`, then the
grayscale-channel insertion `np.array([frame]).swapaxes(0, 2).swapaxes(0, 1)`
when the frame has fewer than 3 axes. -/
def Video.packFrame {α : Type*} (frame : Tensor α) : Tensor α :=
  let fr := frame.swapaxes 0 1
  if fr.shape.length < 3 then ((fr.expandDims).swapaxes 0 2).swapaxes 0 1 else fr

/-- `Video.set_data(frames)`: per-frame `Video.packFrame`, then stack,
`np.rollaxis(·, 3)` and `swapaxes(2, 3)`. Returns the packed array together
with `self.length`. -/
def Video.set_data {α : Type*} (d : α) (frames : List (Tensor α)) : Tensor α × ℕ :=
  let data_frames := frames.map Video.packFrame
  let frames_n := data_frames.length
  let arr := Tensor.stack d data_frames
  let rolled := arr.rollaxis3
  (rolled.swapaxes 2 3, frames_n)

/-! ## Helper lemmas -/

section GfmLemmas

variable {α δ : Type*} (det : α → List δ) (pred : α → δ → List (ℤ × ℤ))
variable (resize : α → ℤ × ℤ → α) (crop : α → ℤ → ℤ → ℤ → ℤ → α) (shp : α → ℕ × ℕ)

/-- A nonempty detection list has a last element. -/
lemma exists_getLast_of_ne_nil {l : List δ} (h : l ≠ []) : ∃ d, l.getLast? = some d := by
  cases hl : l.getLast? with
  | none => exact absurd (List.getLast?_eq_none_iff.mp hl) h
  | some d => exact ⟨d, rfl⟩

/-- If some remaining frame has no detection, the loop returns the whole
original `frames`. -/
lemma gfmGo_abort (frames : List α) (rest : List α) :
    ∀ (nr : Option ℚ) (acc : List α), (∃ f ∈ rest, det f = []) →
      Video.gfmGo det pred resize crop shp frames rest nr acc = frames := by
  induction rest with
  | nil =>
    intro nr acc h
    rcases h with ⟨f, hf, _⟩
    cases hf
  | cons f rest ih =>
    intro nr acc h
    by_cases hdet : det f = []
    · have hnone : (det f).getLast? = none := by simp [hdet]
      simp [Video.gfmGo, hnone]
    · rcases h with ⟨g, hg, hgdet⟩
      rcases List.mem_cons.mp hg with rfl | hgrest
      · exact absurd hgdet hdet
      · obtain ⟨d, hd⟩ := exists_getLast_of_ne_nil hdet
        simp only [Video.gfmGo, hd]
        exact ih _ _ ⟨g, hgrest, hgdet⟩

/-- Once `normalize_ratio` is `some r`, every remaining frame (all detected)
is processed with that same `r`. -/
lemma gfmGo_fixed_ratio (frames : List α) (rest : List α) :
    ∀ (r : ℚ) (acc : List α), (∀ f ∈ rest, det f ≠ []) →
      Video.gfmGo det pred resize crop shp frames rest (some r) acc =
        acc ++ rest.map (fun f =>
          Video.processFrame resize crop shp r f (Video.mouthPoints det pred f)) := by
  induction rest with
  | nil => intro r acc _; simp [Video.gfmGo]
  | cons f rest ih =>
    intro r acc h
    obtain ⟨d, hd⟩ := exists_getLast_of_ne_nil (h f (List.mem_cons_self f rest))
    have hpts : Video.mouthPoints det pred f = (pred f d).drop 48 := by
      simp [Video.mouthPoints, hd]
    simp only [Video.gfmGo, hd]
    rw [ih r _ (fun g hg => h g (List.mem_cons_of_mem f hg))]
    simp [hpts]

end GfmLemmas

/-! ## Concrete oracles for witnesses and counterexamples

Frames are integers; the "detector" finds a (single) face only on frame `0`;
the "predictor" returns 48 placeholder landmarks followed by the two mouth
landmarks `(20, 50)` and `(80, 50)` (x-extent 20–80, centroid `(50, 50)`);
resize and crop inject their numeric arguments so that distinct geometry
yields distinct outputs. -/

def cDet : ℤ → List Unit := fun f => if f = 0 then [()] else []

def cDetAll : ℤ → List Unit := fun _ => [()]

def cDetNone : ℤ → List Unit := fun _ => []

def cPred : ℤ → Unit → List (ℤ × ℤ) := fun _ _ => List.replicate 48 (0, 0) ++ [(20, 50), (80, 50)]

def cResize : ℤ → ℤ × ℤ → ℤ := fun f s => f * 1000 + s.1 + s.2

def cCrop : ℤ → ℤ → ℤ → ℤ → ℤ → ℤ := fun f t b l r => f * 100000 + t * 17 + b * 13 + l * 7 + r

def cShape : ℤ → ℕ × ℕ := fun _ => (100, 100)

/-! ## Claims C1–C3 -/

/-- Claim C1: if any frame of the clip yields no face detection,
`Video.get_frames_mouth` returns the entire original input sequence
unchanged, aborting cropping for all frames; in particular (taking all
frames undetected, or the first) the result is the identity on the input. -/
theorem gfm_abort_identity {α δ : Type*} (det : α → List δ) (pred : α → δ → List (ℤ × ℤ))
    (resize : α → ℤ × ℤ → α) (crop : α → ℤ → ℤ → ℤ → ℤ → α) (shp : α → ℕ × ℕ)
    (frames : List α) (h : ∃ f ∈ frames, det f = []) :
    Video.get_frames_mouth det pred resize crop shp frames = frames :=
  gfmGo_abort det pred resize crop shp frames frames none [] h

/-- Witness for C1: a 2-frame clip on which the detector never fires is
returned unchanged. -/
theorem gfm_abort_identity_witness :
    (∃ f ∈ ([5, 6] : List ℤ), cDetNone f = []) ∧
    Video.get_frames_mouth cDetNone cPred cResize cCrop cShape [5, 6] = [5, 6] :=
  ⟨by decide, gfm_abort_identity cDetNone cPred cResize cCrop cShape [5, 6] (by decide)⟩

/-- Claim C2: when no frame aborts the crop (every frame has a detection),
`normalize_ratio` is computed exactly once — from the first frame, the first
frame whose landmarks are detected — and that same value is used for
resizing and cropping every frame of the clip, while each frame's own mouth
centroid (`Video.mouthPoints`, fed to `Video.processFrame`) is recomputed
per frame. -/
theorem gfm_normalize_once {α δ : Type*} (det : α → List δ) (pred : α → δ → List (ℤ × ℤ))
    (resize : α → ℤ × ℤ → α) (crop : α → ℤ → ℤ → ℤ → ℤ → α) (shp : α → ℕ × ℕ)
    (frames : List α) (h : ∀ f ∈ frames, det f ≠ []) :
    Video.get_frames_mouth det pred resize crop shp frames =
      frames.map (fun f => Video.processFrame resize crop shp
        (Video.firstNormRatio det pred frames) f (Video.mouthPoints det pred f)) := by
  cases frames with
  | nil => rfl
  | cons f0 rest =>
    obtain ⟨d, hd⟩ := exists_getLast_of_ne_nil (h f0 (List.mem_cons_self f0 rest))
    have hpts : Video.mouthPoints det pred f0 = (pred f0 d).drop 48 := by
      simp [Video.mouthPoints, hd]
    have hfr : Video.firstNormRatio det pred (f0 :: rest) =
        Video.normRatioOf ((pred f0 d).drop 48) := by
      simp [Video.firstNormRatio, hpts]
    simp only [Video.get_frames_mouth, Video.gfmGo, hd]
    rw [gfmGo_fixed_ratio det pred resize crop shp _ rest _ _
      (fun g hg => h g (List.mem_cons_of_mem f0 hg))]
    simp [hfr, hpts]

/-- Witness for C2: a 2-frame clip with every frame detected equals the map
of the one fixed-ratio frame processor over the input. -/
theorem gfm_normalize_once_witness :
    (∀ f ∈ ([0, 1] : List ℤ), cDetAll f ≠ []) ∧
    Video.get_frames_mouth cDetAll cPred cResize cCrop cShape [0, 1] =
      [0, 1].map (fun f => Video.processFrame cResize cCrop cShape
        (Video.firstNormRatio cDetAll cPred [0, 1]) f (Video.mouthPoints cDetAll cPred f)) :=
  ⟨by decide, gfm_normalize_once cDetAll cPred cResize cCrop cShape [0, 1] (by decide)⟩

/-- Counterexample to claim C3: on the 3-frame clip in which only frame `0`
yields mouth landmarks (centroid `(50, 50)`, x-extent 20–80, width 60),
`Video.get_frames_mouth` does NOT produce 3 cropped 50×100 frames — it
returns the 3 original frames unchanged (the crop oracle, which marks its
output, is never applied) — and the `normalize_ratio` the source formula
yields for those landmarks is `100/79 = 100/((80·1.19) − (20·0.81))`, not
the claimed `100/(60·1.19·2)`. -/
theorem gfm_c3_counterexample :
    Video.get_frames_mouth cDet cPred cResize cCrop cShape [0, 1, 2] = [0, 1, 2] ∧
    Video.mouthPoints cDet cPred 0 = [(20, 50), (80, 50)] ∧
    Video.centroidOf [(20, 50), (80, 50)] = (50, 50) ∧
    Video.normRatioOf [(20, 50), (80, 50)] = 100 / 79 ∧
    (100 : ℚ) / 79 ≠ 100 / (60 * (119 / 100) * 2) := by
  exact ⟨by decide, by decide, by decide, by decide, by decide⟩

/-- Claim C3 amended: on a 3-frame clip whose first frame has mouth
landmarks with x-extent 20–80 and whose second frame has no detection
(so that only frame 0 yields landmarks), `Video.get_frames_mouth` returns
the original 3 frames unchanged — the all-or-nothing abort — and the
`normalize_ratio` computed from frame 0 by the source formula is
`100/((80·1.19) − (20·0.81)) = 100/79`; no 50×100 crops are produced. -/
theorem gfm_c3_amended {α δ : Type*} (det : α → List δ) (pred : α → δ → List (ℤ × ℤ))
    (resize : α → ℤ × ℤ → α) (crop : α → ℤ → ℤ → ℤ → ℤ → α) (shp : α → ℕ × ℕ)
    (f0 f1 f2 : α) (h0 : Video.mouthPoints det pred f0 = [(20, 50), (80, 50)])
    (h1 : det f1 = []) :
    Video.get_frames_mouth det pred resize crop shp [f0, f1, f2] = [f0, f1, f2] ∧
    Video.firstNormRatio det pred [f0, f1, f2] = 100 / 79 := by
  refine ⟨gfmGo_abort det pred resize crop shp _ _ none []
    ⟨f1, by simp, h1⟩, ?_⟩
  simp only [Video.firstNormRatio, h0]
  decide

/-- Witness for the amended C3, at the concrete oracles. -/
theorem gfm_c3_amended_witness :
    Video.mouthPoints cDet cPred 0 = [(20, 50), (80, 50)] ∧ cDet 1 = [] ∧
    (Video.get_frames_mouth cDet cPred cResize cCrop cShape [0, 1, 2] = [0, 1, 2] ∧
     Video.firstNormRatio cDet cPred [0, 1, 2] = 100 / 79) :=
  ⟨by decide, by decide,
   gfm_c3_amended cDet cPred cResize cCrop cShape 0 1 2 (by decide) (by decide)⟩

/-! ## Claim C5: `Video.set_data` -/

@[simp] lemma listSwap01_two (a b : ℕ) : listSwap 0 1 [a, b] = [b, a] := rfl

@[simp] lemma listSwap01_three (a b c : ℕ) : listSwap 0 1 [a, b, c] = [b, a, c] := rfl

@[simp] lemma listSwap02_three (a b c : ℕ) : listSwap 0 2 [a, b, c] = [c, b, a] := rfl

@[simp] lemma listSwap23_four (a b c e : ℕ) : listSwap 2 3 [a, b, c, e] = [a, b, e, c] := rfl

/-- `getD` commutes with `map` at in-range positions, for any defaults. -/
lemma getD_map_of_lt {α β : Type*} (g : α → β) :
    ∀ (l : List α) (n : ℕ), n < l.length → ∀ (d : α) (d' : β),
      (l.map g).getD n d' = g (l.getD n d)
  | [], n, h => by simp at h
  | a :: as, 0, _ => by intro d d'; rfl
  | a :: as, n + 1, h => by
    intro d d'
    simpa using getD_map_of_lt g as n (by simpa using h) d d'

/-- An in-range `getD` is a member of the list. -/
lemma getD_mem_of_lt {α : Type*} :
    ∀ (l : List α) (n : ℕ), n < l.length → ∀ (d : α), l.getD n d ∈ l
  | [], n, h => by simp at h
  | a :: as, 0, _ => by intro d; exact List.mem_cons_self a as
  | a :: as, n + 1, h => by
    intro d
    exact List.mem_cons_of_mem a (getD_mem_of_lt as n (by simpa using h) d)

/-- On a 3-axis frame `packFrame` is just `swapaxes(0, 1)`. -/
lemma packFrame_3d {α : Type*} {f : Tensor α} {a b c : ℕ} (hf : f.shape = [a, b, c]) :
    Video.packFrame f = f.swapaxes 0 1 := by
  have h1 : (f.swapaxes 0 1).shape = [b, a, c] := by
    show listSwap 0 1 f.shape = _
    rw [hf]
    rfl
  simp [Video.packFrame, h1]

/-- On a 2-axis frame `packFrame` swaps, prepends the unit axis and swaps it
to the trailing position. -/
lemma packFrame_2d {α : Type*} {f : Tensor α} {a b : ℕ} (hf : f.shape = [a, b]) :
    Video.packFrame f = (((f.swapaxes 0 1).expandDims).swapaxes 0 2).swapaxes 0 1 := by
  have h1 : (f.swapaxes 0 1).shape = [b, a] := by
    show listSwap 0 1 f.shape = _
    rw [hf]
    rfl
  simp [Video.packFrame, h1]

/-- Claim C5: for a non-empty list of frames of identical shape, `H×W×C`
or `H×W`, `Video.set_data` produces the shape `(C_or_1, N, H, W)` — axis
order channel, time, height, width, with a unit channel axis added for
single-channel input — sets `length = N`, and is a pure axis permutation:
output element `[c, t, h, w]` is input frame `t`'s element `[h, w, c]`
(resp. `[h, w]`). -/
theorem set_data_pack_spec {α : Type*} (d : α) (frames : List (Tensor α)) (H W C : ℕ)
    (hne : frames ≠ []) :
    (Video.set_data d frames).2 = frames.length ∧
    ((∀ f ∈ frames, f.shape = [H, W, C]) →
      (Video.set_data d frames).1.shape = [C, frames.length, H, W] ∧
      ∀ t, t < frames.length → ∀ c h w,
        (Video.set_data d frames).1.el [c, t, h, w] =
          (frames.getD t (Tensor.const d)).el [h, w, c]) ∧
    ((∀ f ∈ frames, f.shape = [H, W]) →
      (Video.set_data d frames).1.shape = [1, frames.length, H, W] ∧
      ∀ t, t < frames.length → ∀ c h w,
        (Video.set_data d frames).1.el [c, t, h, w] =
          (frames.getD t (Tensor.const d)).el [h, w]) := by
  obtain ⟨f0, rest, rfl⟩ := List.exists_cons_of_ne_nil hne
  refine ⟨by simp [Video.set_data], fun hsh => ⟨?_, ?_⟩, fun hsh => ⟨?_, ?_⟩⟩
  · -- 3-D shape
    have hpk0 : Video.packFrame f0 = f0.swapaxes 0 1 := packFrame_3d (hsh f0 (by simp))
    have hsh0 : (Video.packFrame f0).shape = [W, H, C] := by
      rw [hpk0]
      show listSwap 0 1 f0.shape = _
      rw [hsh f0 (by simp)]
      rfl
    simp [Video.set_data, Tensor.stack, Tensor.rollaxis3, Tensor.swapaxes, hsh0]
  · -- 3-D elements
    intro t ht c h w
    have e1 : (Video.set_data d (f0 :: rest)).1.el [c, t, h, w] =
        (((f0 :: rest).map Video.packFrame).getD t (Tensor.const d)).el [w, h, c] := rfl
    rw [e1, getD_map_of_lt Video.packFrame _ t ht (Tensor.const d) _]
    have hf : ((f0 :: rest).getD t (Tensor.const d)).shape = [H, W, C] :=
      hsh _ (getD_mem_of_lt _ t ht _)
    rw [packFrame_3d hf]
    rfl
  · -- 2-D shape
    have hpk0 : Video.packFrame f0 =
        (((f0.swapaxes 0 1).expandDims).swapaxes 0 2).swapaxes 0 1 :=
      packFrame_2d (hsh f0 (by simp))
    have hsh0 : (Video.packFrame f0).shape = [W, H, 1] := by
      rw [hpk0]
      show listSwap 0 1 (listSwap 0 2 (1 :: listSwap 0 1 f0.shape)) = _
      rw [hsh f0 (by simp)]
      rfl
    simp [Video.set_data, Tensor.stack, Tensor.rollaxis3, Tensor.swapaxes, hsh0]
  · -- 2-D elements
    intro t ht c h w
    have e1 : (Video.set_data d (f0 :: rest)).1.el [c, t, h, w] =
        (((f0 :: rest).map Video.packFrame).getD t (Tensor.const d)).el [w, h, c] := rfl
    rw [e1, getD_map_of_lt Video.packFrame _ t ht (Tensor.const d) _]
    have hf : ((f0 :: rest).getD t (Tensor.const d)).shape = [H, W] :=
      hsh _ (getD_mem_of_lt _ t ht _)
    rw [packFrame_2d hf]
    rfl

/-- A concrete 2×3×4 frame for the C5 witness. -/
def wT1 : Tensor ℕ := ⟨[2, 3, 4], fun idx => idx.foldl (fun a x => a * 10 + x) 1⟩

/-- A second concrete 2×3×4 frame for the C5 witness. -/
def wT2 : Tensor ℕ := ⟨[2, 3, 4], fun idx => idx.foldl (fun a x => a * 10 + x) 2⟩

/-- A concrete 2×3 grayscale frame for the C5 witness. -/
def wG1 : Tensor ℕ := ⟨[2, 3], fun idx => idx.foldl (fun a x => a * 10 + x) 7⟩

/-- Witness for C5: two 2×3×4 frames pack to shape `(4, 2, 2, 3)` with
elements permuted, and one 2×3 grayscale frame packs to `(1, 1, 2, 3)`. -/
theorem set_data_pack_spec_witness :
    (Video.set_data 0 [wT1, wT2]).2 = 2 ∧
    (Video.set_data 0 [wT1, wT2]).1.shape = [4, 2, 2, 3] ∧
    (Video.set_data 0 [wT1, wT2]).1.el [3, 1, 2, 0] = wT2.el [2, 0, 3] ∧
    (Video.set_data 0 [wG1]).1.shape = [1, 1, 2, 3] := by
  have h3 : ∀ f ∈ [wT1, wT2], Tensor.shape f = [2, 3, 4] := by
    intro f hf
    simp only [List.mem_cons, List.not_mem_nil, or_false] at hf
    rcases hf with rfl | rfl <;> rfl
  have h2 : ∀ f ∈ [wG1], Tensor.shape f = [2, 3] := by
    intro f hf
    simp only [List.mem_cons, List.not_mem_nil, or_false] at hf
    rcases hf with rfl
    rfl
  refine ⟨(set_data_pack_spec 0 [wT1, wT2] 2 3 4 (List.cons_ne_nil _ _)).1,
    ((set_data_pack_spec 0 [wT1, wT2] 2 3 4 (List.cons_ne_nil _ _)).2.1 h3).1,
    ((set_data_pack_spec 0 [wT1, wT2] 2 3 4 (List.cons_ne_nil _ _)).2.1 h3).2 1 (by decide) 3 2 0,
    ((set_data_pack_spec 0 [wG1] 2 3 0 (List.cons_ne_nil _ _)).2.2 h2).1⟩

/-! ## Claims C6–C8: `Align` -/

/-- Both ways of writing "token is neither `sp` nor `sil`" filter alike. -/
lemma filter_strip_eq (l : List Align.Rec) :
    (l.filter (fun sub => sub.2.2 ∉ (["sp", "sil"] : List String))) =
    (l.filter (fun sub => sub.2.2 ≠ "sp" ∧ sub.2.2 ≠ "sil")) := by
  apply List.filter_congr
  intro x _
  apply decide_eq_decide.mpr
  simp [List.mem_cons, not_or]

/-- Claim C6: `Align.build` sets `align` to the records whose token is
neither `"sp"` nor `"sil"` (order preserved) and `sentence` to the
non-filler tokens joined by single spaces; on the records parsed from
`["0 1000 sp", "1000 2000 hello", "2000 2500 sil"]` the sentence is
`"hello"` and `align` holds only the `"hello"` record. -/
theorem align_build_strip_sentence (maxLen : ℕ) (lf : String → List ℤ) (a : List Align.Rec) :
    (Align.build maxLen lf a).align =
      a.filter (fun sub => sub.2.2 ≠ "sp" ∧ sub.2.2 ≠ "sil") ∧
    (Align.build maxLen lf a).sentence = String.intercalate " "
      ((a.filter (fun sub => sub.2.2 ≠ "sp" ∧ sub.2.2 ≠ "sil")).map (fun y => y.2.2)) ∧
    Align.parseLines ["0 1000 sp", "1000 2000 hello", "2000 2500 sil"] =
      some [(0, 1, "sp"), (1, 2, "hello"), (2, 5/2, "sil")] ∧
    (Align.build maxLen lf [(0, 1, "sp"), (1, 2, "hello"), (2, 5/2, "sil")]).sentence =
      "hello" ∧
    (Align.build maxLen lf [(0, 1, "sp"), (1, 2, "hello"), (2, 5/2, "sil")]).align =
      [(1, 2, "hello")] := by
  refine ⟨?_, ?_, by decide, ?_, ?_⟩
  · show Align.strip a ["sp", "sil"] = _
    exact filter_strip_eq a
  · show Align.get_sentence a = _
    unfold Align.get_sentence
    rw [filter_strip_eq]
  · show Align.get_sentence [(0, 1, "sp"), (1, 2, "hello"), (2, 5/2, "sil")] = "hello"
    decide
  · show Align.strip [(0, 1, "sp"), (1, 2, "hello"), (2, 5/2, "sil")] ["sp", "sil"] =
      [(1, 2, "hello")]
    decide

/-- Claim C7: when the label fits, `get_padded_label` returns an array of
length exactly `absolute_max_string_len` whose head is the label and whose
tail is the sentinel `−1`; when the label is longer, the construction fails
(`np.ones` of a negative dimension raises) rather than truncating. -/
theorem get_padded_label_spec (maxLen : ℕ) (label : List ℤ) :
    (label.length ≤ maxLen →
      ∃ p, Align.get_padded_label maxLen label = some p ∧
        p.length = maxLen ∧ p.take label.length = label ∧
        p.drop label.length = List.replicate (maxLen - label.length) (-1)) ∧
    (maxLen < label.length → Align.get_padded_label maxLen label = none) := by
  constructor
  · intro h
    have hk : ¬ ((maxLen : ℤ) - (label.length : ℤ) < 0) := by omega
    have htn : ((maxLen : ℤ) - (label.length : ℤ)).toNat = maxLen - label.length := by omega
    refine ⟨label ++ List.replicate (maxLen - label.length) (-1), ?_, ?_, ?_, ?_⟩
    · unfold Align.get_padded_label
      rw [if_neg hk, htn]
    · simp [List.length_append, List.length_replicate]
      omega
    · exact List.take_left label _
    · exact List.drop_left label _
  · intro h
    have hk : (maxLen : ℤ) - (label.length : ℤ) < 0 := by omega
    unfold Align.get_padded_label
    rw [if_pos hk]

/-- Witness for C7: a 2-token label padded to length 5, and a 3-token label
rejected at maximum 1. -/
theorem get_padded_label_spec_witness :
    ((2 : ℕ) ≤ 5 ∧
      ∃ p, Align.get_padded_label 5 [3, 4] = some p ∧ p.length = 5 ∧
        p.take 2 = [3, 4] ∧ p.drop 2 = List.replicate 3 (-1)) ∧
    ((1 : ℕ) < 3 ∧ Align.get_padded_label 1 [3, 4, 5] = none) :=
  ⟨⟨by decide, (get_padded_label_spec 5 [3, 4]).1 (by decide)⟩,
   ⟨by decide, (get_padded_label_spec 1 [3, 4, 5]).2 (by decide)⟩⟩

/-- Counterexample to claim C8: the line `"0 1000 hello world"` splits into
4 fields — not exactly 3 — so by the claim `from_file` must fail on it, yet
the parse succeeds: the comprehension reads only `y[0]`, `y[1]`, `y[2]` and
ignores extra fields. -/
theorem from_file_c8_counterexample :
    (pySplitSpace (pyStrip "0 1000 hello world")).length = 4 ∧
    Align.parseLine "0 1000 hello world" = some (0, 1, "hello") ∧
    Align.parseLines ["0 1000 hello world"] = some [(0, 1, "hello")] :=
  ⟨by decide, by decide, by decide⟩

/-- A transcript line on which `from_file`'s comprehension raises: fewer
than 3 space-split fields after stripping (`IndexError`), or a non-integer
first or second field (`ValueError`). -/
def badLine (x : String) : Prop :=
  (pySplitSpace (pyStrip x)).length < 3 ∨
  pyInt ((pySplitSpace (pyStrip x)).getD 0 "") = none ∨
  pyInt ((pySplitSpace (pyStrip x)).getD 1 "") = none

/-- One line fails exactly when `badLine` holds. -/
lemma parseLine_eq_none_iff (x : String) :
    Align.parseLine x = none ↔ badLine x := by
  unfold Align.parseLine badLine
  rcases hsp : pySplitSpace (pyStrip x) with _ | ⟨a, _ | ⟨b, _ | ⟨c, rest⟩⟩⟩
  · simp
  · simp
  · simp
  · cases ha : pyInt a with
    | none => simp [ha]
    | some s =>
      cases hb : pyInt b with
      | none => simp [ha, hb]
      | some e => simp [ha, hb]

/-- The whole-file parse fails exactly when some line fails. -/
lemma parseLines_eq_none_iff :
    ∀ (l : List String), Align.parseLines l = none ↔ ∃ x ∈ l, Align.parseLine x = none := by
  intro l
  induction l with
  | nil => simp [Align.parseLines]
  | cons a t ih =>
    cases hga : Align.parseLine a with
    | none => simp [Align.parseLines, hga]
    | some y =>
      cases hgs : Align.parseLines t with
      | none =>
        obtain ⟨x, hx, hxn⟩ := ih.mp hgs
        simp only [Align.parseLines, hga, hgs]
        exact iff_of_true trivial ⟨x, List.mem_cons_of_mem a hx, hxn⟩
      | some rs =>
        have hne : ¬ ∃ x ∈ t, Align.parseLine x = none := by
          rw [← ih, hgs]
          simp
        simp only [Align.parseLines, hga, hgs]
        simp [hga, hne]

/-- Claim C8 amended: `Align.from_file` fails iff some line splits (on
single spaces, after stripping) into FEWER than 3 fields or has a
non-integer first or second field — fields beyond the third are ignored,
so "not exactly 3 fields" is not the failing condition — and on success the
first two fields are divided by 1000 (milliseconds to seconds). -/
theorem from_file_c8_amended (lines : List String) :
    (Align.parseLines lines = none ↔ ∃ x ∈ lines, badLine x) ∧
    (∀ x a b c rest, pySplitSpace (pyStrip x) = a :: b :: c :: rest →
      ∀ s e, pyInt a = some s → pyInt b = some e →
        Align.parseLine x = some ((s : ℚ) / 1000, (e : ℚ) / 1000, c)) := by
  constructor
  · rw [parseLines_eq_none_iff]
    simp only [parseLine_eq_none_iff]
  · intro x a b c rest hsp s e hs he
    unfold Align.parseLine
    rw [hsp]
    simp [hs, he]

/-- Witness for the amended C8: a 4-field line parses, with its times
divided by 1000; a malformed batch fails. -/
theorem from_file_c8_amended_witness :
    pySplitSpace (pyStrip "3000 500 tok extra") = ["3000", "500", "tok", "extra"] ∧
    pyInt "3000" = some 3000 ∧ pyInt "500" = some 500 ∧
    Align.parseLine "3000 500 tok extra" =
      some ((3000 : ℚ) / 1000, (500 : ℚ) / 1000, "tok") :=
  ⟨by decide, by decide, by decide,
   (from_file_c8_amended []).2 "3000 500 tok extra" "3000" "500" "tok" ["extra"]
     (by decide) 3000 500 (by decide) (by decide)⟩

/-! ## Claims C4, C9, C10: the `preprocess` driver -/

/-- Indices of one run whose per-index processing completed normally. -/
def okIdxList (ff : String → List String) (pf : String → FileOutcome)
    (pairs : List (ℤ × String)) : List ℤ :=
  (pairs.filter (fun q => processFiles pf (ff q.2) = .ok)).map Prod.fst

/-- Indices of one run whose per-index processing raised. -/
def errIdxList (ff : String → List String) (pf : String → FileOutcome)
    (pairs : List (ℤ × String)) : List ℤ :=
  (pairs.filter (fun q => processFiles pf (ff q.2) ≠ .ok)).map Prod.fst

/-- The first components of `pathPairs` are the indices themselves. -/
lemma pathPairs_map_fst : ∀ (idxs : List ℤ) (sp : String),
    (pathPairs sp idxs).map Prod.fst = idxs
  | [], _ => rfl
  | i :: rest, sp => by simp [pathPairs, pathPairs_map_fst rest]

/-- `range(a, b)` has no duplicates. -/
lemma pyRange_nodup (a b : ℤ) : (pyRange a b).Nodup := by
  have hinj : Function.Injective (fun i : ℕ => a + (i : ℤ)) := by
    intro i j hij
    simp only at hij
    omega
  exact List.Nodup.map hinj (List.nodup_range _)

/-- Over a duplicate-free index list, a pair is determined by its index. -/
lemma pathPairs_fst_inj {idxs : List ℤ} (hn : idxs.Nodup) (sp : String) :
    ∀ q1 ∈ pathPairs sp idxs, ∀ q2 ∈ pathPairs sp idxs, q1.1 = q2.1 → q1 = q2 := by
  have hmap : ((pathPairs sp idxs).map Prod.fst).Nodup := by
    rw [pathPairs_map_fst]
    exact hn
  intro q1 h1 q2 h2 heq
  exact List.inj_on_of_nodup_map hmap h1 h2 heq

lemma mem_okIdxList {ff : String → List String} {pf : String → FileOutcome}
    {pairs : List (ℤ × String)} {x : ℤ} :
    x ∈ okIdxList ff pf pairs ↔
      ∃ q ∈ pairs, q.1 = x ∧ processFiles pf (ff q.2) = .ok := by
  simp only [okIdxList, List.mem_map, List.mem_filter, decide_eq_true_eq]
  constructor
  · rintro ⟨q, ⟨hq, hok⟩, rfl⟩
    exact ⟨q, hq, rfl, hok⟩
  · rintro ⟨q, hq, rfl, hok⟩
    exact ⟨q, ⟨hq, hok⟩, rfl⟩

lemma mem_errIdxList {ff : String → List String} {pf : String → FileOutcome}
    {pairs : List (ℤ × String)} {x : ℤ} :
    x ∈ errIdxList ff pf pairs ↔
      ∃ q ∈ pairs, q.1 = x ∧ processFiles pf (ff q.2) ≠ .ok := by
  simp only [errIdxList, List.mem_map, List.mem_filter, decide_not, Bool.not_eq_eq_eq_not,
    Bool.not_true, decide_eq_false_iff_not]
  constructor
  · rintro ⟨q, ⟨hq, hok⟩, rfl⟩
    exact ⟨q, hq, rfl, hok⟩
  · rintro ⟨q, hq, rfl, hok⟩
    exact ⟨q, ⟨hq, hok⟩, rfl⟩

/-- Characterization of the loop of `preprocess`: on normal return, `succ`
and `fail` extend the accumulators with exactly the normally-completed and
the `OSError` indices, and no index raised a non-`OSError` exception. -/
lemma ppGo_char (ff : String → List String) (pf : String → FileOutcome) :
    ∀ (idxs : List ℤ) (sp : String) (s f S F : Finset ℤ),
      ppGo ff pf idxs sp s f = some (S, F) →
      S = s ∪ (okIdxList ff pf (pathPairs sp idxs)).toFinset ∧
      F = f ∪ (errIdxList ff pf (pathPairs sp idxs)).toFinset ∧
      ∀ q ∈ pathPairs sp idxs, processFiles pf (ff q.2) ≠ .otherErr := by
  intro idxs
  induction idxs with
  | nil =>
    intro sp s f S F h
    obtain ⟨rfl, rfl⟩ : s = S ∧ f = F := by simpa [ppGo] using h
    simp [pathPairs, okIdxList, errIdxList]
  | cons idx rest ih =>
    intro sp s f S F h
    simp only [ppGo] at h
    cases hout : processFiles pf (ff (sIdxPath sp idx)) with
    | ok =>
      rw [hout] at h
      obtain ⟨hS, hF, hno⟩ := ih (sIdxPath sp idx) (insert idx s) f S F h
      refine ⟨?_, ?_, ?_⟩
      · rw [hS]
        have hok : okIdxList ff pf (pathPairs sp (idx :: rest)) =
            idx :: okIdxList ff pf (pathPairs (sIdxPath sp idx) rest) := by
          simp [pathPairs, okIdxList, hout]
        rw [hok]
        ext x
        simp only [Finset.mem_union, Finset.mem_insert, List.toFinset_cons, List.mem_toFinset]
        tauto
      · rw [hF]
        have herr : errIdxList ff pf (pathPairs sp (idx :: rest)) =
            errIdxList ff pf (pathPairs (sIdxPath sp idx) rest) := by
          simp [pathPairs, errIdxList, hout]
        rw [herr]
      · intro q hq
        rcases List.mem_cons.mp hq with rfl | hq'
        · rw [hout]
          intro hc
          cases hc
        · exact hno q hq'
    | osErr =>
      rw [hout] at h
      obtain ⟨hS, hF, hno⟩ := ih (sIdxPath sp idx) s (insert idx f) S F h
      refine ⟨?_, ?_, ?_⟩
      · rw [hS]
        have hok : okIdxList ff pf (pathPairs sp (idx :: rest)) =
            okIdxList ff pf (pathPairs (sIdxPath sp idx) rest) := by
          simp [pathPairs, okIdxList, hout]
        rw [hok]
      · rw [hF]
        have herr : errIdxList ff pf (pathPairs sp (idx :: rest)) =
            idx :: errIdxList ff pf (pathPairs (sIdxPath sp idx) rest) := by
          simp [pathPairs, errIdxList, hout]
        rw [herr]
        ext x
        simp only [Finset.mem_union, Finset.mem_insert, List.toFinset_cons, List.mem_toFinset]
        tauto
      · intro q hq
        rcases List.mem_cons.mp hq with rfl | hq'
        · rw [hout]
          intro hc
          cases hc
        · exact hno q hq'
    | otherErr =>
      rw [hout] at h
      cases h

/-- Claim C10: when `preprocess` returns normally with `(succ, fail)`, the
two sets are disjoint and partition exactly the half-open index range
`[from_idx, to_idx)`. -/
theorem preprocess_partition (ff : String → List String) (pf : String → FileOutcome)
    (a b : ℤ) (src : String) (S F : Finset ℤ)
    (h : preprocess ff pf a b src = some (S, F)) :
    Disjoint S F ∧ S ∪ F = (pyRange a b).toFinset := by
  obtain ⟨hS, hF, -⟩ := ppGo_char ff pf (pyRange a b) src ∅ ∅ S F h
  rw [hS, hF]
  simp only [Finset.empty_union]
  constructor
  · rw [Finset.disjoint_left]
    intro x hx hx'
    obtain ⟨q1, hq1, hq1x, hok⟩ := mem_okIdxList.mp (List.mem_toFinset.mp hx)
    obtain ⟨q2, hq2, hq2x, herr⟩ := mem_errIdxList.mp (List.mem_toFinset.mp hx')
    have : q1 = q2 :=
      pathPairs_fst_inj (pyRange_nodup a b) src q1 hq1 q2 hq2 (hq1x.trans hq2x.symm)
    rw [this] at hok
    exact herr hok
  · ext x
    simp only [Finset.mem_union, List.mem_toFinset, mem_okIdxList, mem_errIdxList]
    constructor
    · rintro (⟨q, hq, rfl, -⟩ | ⟨q, hq, rfl, -⟩) <;>
        · rw [← pathPairs_map_fst (pyRange a b) src]
          exact List.mem_map_of_mem Prod.fst hq
    · intro hx
      rw [← pathPairs_map_fst (pyRange a b) src] at hx
      obtain ⟨q, hq, rfl⟩ := List.mem_map.mp hx
      by_cases hout : processFiles pf (ff q.2) = .ok
      · exact Or.inl ⟨q, hq, rfl, hout⟩
      · exact Or.inr ⟨q, hq, rfl, hout⟩

/-- Claim C9: on normal return, an index is in `fail` iff its processing
raised `OSError` (only OS-level errors fail an index, and such an error
fails exactly that index while the loop continues); an index is in `succ`
iff its processing completed, and in particular an index whose directory
holds no matching file is in `succ`. Each index is judged at the directory
the code actually searches for it (its `pathPairs` entry). -/
theorem preprocess_error_scoping (ff : String → List String) (pf : String → FileOutcome)
    (a b : ℤ) (src : String) (S F : Finset ℤ)
    (h : preprocess ff pf a b src = some (S, F)) :
    ∀ q ∈ pathPairs src (pyRange a b),
      (processFiles pf (ff q.2) = .osErr ↔ q.1 ∈ F) ∧
      (processFiles pf (ff q.2) = .ok ↔ q.1 ∈ S) ∧
      (ff q.2 = [] → q.1 ∈ S) := by
  obtain ⟨hS, hF, hno⟩ := ppGo_char ff pf (pyRange a b) src ∅ ∅ S F h
  intro q hq
  have hSmem : q.1 ∈ S ↔ processFiles pf (ff q.2) = .ok := by
    rw [hS]
    simp only [Finset.empty_union, List.mem_toFinset, mem_okIdxList]
    constructor
    · rintro ⟨q', hq', hq'x, hok⟩
      rw [pathPairs_fst_inj (pyRange_nodup a b) src q hq q' hq' hq'x.symm]
      exact hok
    · intro hok
      exact ⟨q, hq, rfl, hok⟩
  have hFmem : q.1 ∈ F ↔ processFiles pf (ff q.2) ≠ .ok := by
    rw [hF]
    simp only [Finset.empty_union, List.mem_toFinset, mem_errIdxList]
    constructor
    · rintro ⟨q', hq', hq'x, herr⟩
      rw [pathPairs_fst_inj (pyRange_nodup a b) src q hq q' hq' hq'x.symm]
      exact herr
    · intro herr
      exact ⟨q, hq, rfl, herr⟩
  refine ⟨⟨fun hos => hFmem.mpr (by rw [hos]; intro hc; cases hc), fun hqF => ?_⟩,
    ⟨fun hok => hSmem.mpr hok, fun hqS => hSmem.mp hqS⟩,
    fun hempty => hSmem.mpr (by rw [hempty]; rfl)⟩
  have hne := hFmem.mp hqF
  cases hout : processFiles pf (ff q.2) with
  | ok => exact absurd hout hne
  | osErr => rfl
  | otherErr => exact absurd hout (hno q hq)

/-- Oracle for the C9/C10 witnesses: only the directory `"d/s0/"` holds a
video file. -/
def ffW : String → List String := fun p => if p = "d/s0/" then ["a.mpg"] else []

/-- Oracle for the C4/C9/C10 witnesses: every processed file raises
`OSError`. -/
def pfW : String → FileOutcome := fun _ => .osErr

/-- Witness for C9 at a concrete run: index 0 (whose directory holds a file,
whose processing raises `OSError`) fails; index 1 is judged at its searched
directory and succeeds. -/
theorem preprocess_error_scoping_witness :
    preprocess ffW pfW 0 2 "d" = some ({1}, {0}) ∧
    ((processFiles pfW (ffW "d/s0/") = .osErr ↔ (0 : ℤ) ∈ ({0} : Finset ℤ)) ∧
     (processFiles pfW (ffW "d/s0/") = .ok ↔ (0 : ℤ) ∈ ({1} : Finset ℤ)) ∧
     (ffW "d/s0/" = [] → (0 : ℤ) ∈ ({1} : Finset ℤ))) :=
  ⟨by decide,
   preprocess_error_scoping ffW pfW 0 2 "d" {1} {0} (by decide) (0, "d/s0/") (by decide)⟩

/-- Witness for C10 at the same concrete run: `{1}` and `{0}` are disjoint
and partition `range(0, 2)`. -/
theorem preprocess_partition_witness :
    preprocess ffW pfW 0 2 "d" = some ({1}, {0}) ∧
    (Disjoint ({1} : Finset ℤ) {0} ∧ ({1} : Finset ℤ) ∪ {0} = (pyRange 0 2).toFinset) :=
  ⟨by decide, preprocess_partition ffW pfW 0 2 "d" {1} {0} (by decide)⟩

/-- Oracle for the C4 bug exhibit: the video `"v.mpg"` sits exactly where
the claim says index 1 is searched — under `"data/s1/"`. -/
def ffC4 : String → List String := fun p => if p = "data/s1/" then ["v.mpg"] else []

/-- Claim C4 (code bug): `source_path` is reassigned INSIDE the loop
(line 299), so the directory searched for index 1 is the nested
`"data/s0//s1/"`, not `"data/s1/"`. With a video present under `"data/s1/"`
and per-file processing that always raises `OSError`, the claim demands
index 1 to fail; the code never sees the file — both indices land in
`succ` and the file under `"data/s1/"` is silently skipped. -/
theorem preprocess_c4_nested_path :
    pathPairs "data" (pyRange 0 2) = [(0, "data/s0/"), (1, "data/s0//s1/")] ∧
    ffC4 "data/s1/" = ["v.mpg"] ∧
    (∀ p ∈ (pathPairs "data" (pyRange 0 2)).map Prod.snd, ffC4 p = []) ∧
    preprocess ffC4 pfW 0 2 "data" = some ({1, 0}, ∅) :=
  ⟨by decide, by decide, by decide, by decide⟩
